import Mathlib

/-!
Verification development for the TruthLens verification orchestration engine
(`src/app/api/verify/route.ts`).  The TypeScript source is shallowly embedded:
pure functions become Lean functions, the orchestrator's straight-line async
code becomes explicit state passing over an oracle environment that fixes the
outcome of every external adapter call, and the list of adapter invocations is
recorded as an explicit trace.  JavaScript strings are modelled as Lean
`String`s restricted to ASCII (all regexes in the source are ASCII-only);
`toLowerCase` is modelled as ASCII lowering.
-/

namespace TruthLens

/-! ## Character and string helpers (ASCII model of the JS primitives) -/

/-- ASCII lowering of one character, the ASCII fragment of JS `toLowerCase`. -/
def lowerCh (c : Char) : Char :=
  if 'A' ≤ c ∧ c ≤ 'Z' then Char.ofNat (c.toNat + 32) else c

/-- ASCII lowering of a string, as a character list. -/
def lowerStr (s : String) : List Char := s.toList.map lowerCh

/-- JS regex `\w`: `[A-Za-z0-9_]`. -/
def isWordChar (c : Char) : Bool :=
  ('A' ≤ c && c ≤ 'Z') || ('a' ≤ c && c ≤ 'z') || ('0' ≤ c && c ≤ '9') || c = '_'

/-- Plain list-prefix test (used for literal regex fragments). -/
def isPrefixCh : List Char → List Char → Bool
  | [], _ => true
  | _ :: _, [] => false
  | a :: as, b :: bs => a = b && isPrefixCh as bs

/-- Substring containment: JS `/lit/.test(s)` for a literal pattern `lit`. -/
def containsSub (needle : List Char) : List Char → Bool
  | [] => isPrefixCh needle []
  | c :: rest => isPrefixCh needle (c :: rest) || containsSub needle rest

/-- Case-insensitive literal-regex test: the needle is given lowercase. -/
def strHas (hay : String) (needle : String) : Bool :=
  containsSub needle.toList (lowerStr hay)

/-- JS `Array.prototype.join(sep)`. -/
def joinSep (sep : String) : List String → String
  | [] => ""
  | [x] => x
  | x :: xs => x ++ sep ++ joinSep sep xs

/-- JS `x || d` for numbers: `0` is falsy. -/
def jsOr (x d : Nat) : Nat := if x = 0 then d else x

/-- JS `s || t` for strings: `''` is falsy. -/
def jsOrS (a b : String) : String := if a = "" then b else a

/-! ## Lexical signals of `planToolsForClaim` -/

/-- JS regex `/\d/.test(claim)`. -/
def hasNumbers (claim : String) : Bool := claim.toList.any Char.isDigit

/-- JS regex `/https?:\/\//i.test(claim)`. -/
def hasUrlSignal (claim : String) : Bool :=
  strHas claim "http://" || strHas claim "https://"

/-- JS regex `/(i think|should|best|better|worse|opinion|believe)/i.test(claim)`. -/
def hasOpinionMarker (claim : String) : Bool :=
  strHas claim "i think" || strHas claim "should" || strHas claim "best" ||
  strHas claim "better" || strHas claim "worse" || strHas claim "opinion" ||
  strHas claim "believe"

/-- JS regex `/study|evidence|risk|efficacy|trial|statistic/i.test(claim)`. -/
def hasResearchVocab (claim : String) : Bool :=
  strHas claim "study" || strHas claim "evidence" || strHas claim "risk" ||
  strHas claim "efficacy" || strHas claim "trial" || strHas claim "statistic"

/-- Tail of the `just\s+announced` fragment: one-or-more whitespace then the
literal `announced` (whitespace and `a` are disjoint, so maximal munch of
`\s+` is exact). -/
def jaWs : List Char → Bool
  | [] => false
  | c :: r => if c.isWhitespace then jaWs r
              else isPrefixCh ['a','n','n','o','u','n','c','e','d'] (c :: r)

/-- `just\s+announced` at the current position (on lowered text). -/
def jaHere : List Char → Bool
  | 'j' :: 'u' :: 's' :: 't' :: c :: r => c.isWhitespace && jaWs r
  | _ => false

/-- `just\s+announced` anywhere in the list. -/
def jaScan : List Char → Bool
  | [] => false
  | c :: rest => jaHere (c :: rest) || jaScan rest

/-- JS regex `/(today|yesterday|breaking|just\s+announced|recently)/i.test(claim)`. -/
def hasRecencyMarker (claim : String) : Bool :=
  strHas claim "today" || strHas claim "yesterday" || strHas claim "breaking" ||
  jaScan (lowerStr claim) || strHas claim "recently"

/-- `[A-Z]` (ASCII). -/
def isUpperA (c : Char) : Bool := 'A' ≤ c && c ≤ 'Z'

/-- `[a-z]` (ASCII). -/
def isLowerA (c : Char) : Bool := 'a' ≤ c && c ≤ 'z'

/-- One attempt of `[A-Z][a-z]+\s+[A-Z][a-z]+` at the head of the list,
returning the remainder after the match.  The character classes of
consecutive greedy pieces are pairwise disjoint, so maximal munch agrees
with the backtracking JS engine. -/
def tryEntity : List Char → Option (List Char)
  | [] => none
  | c0 :: rest =>
    if isUpperA c0 then
      let low1 := rest.takeWhile isLowerA
      if low1.length > 0 then
        let r1 := rest.drop low1.length
        let ws := r1.takeWhile (fun c => c.isWhitespace)
        if ws.length > 0 then
          match r1.drop ws.length with
          | c1 :: rest2 =>
            if isUpperA c1 then
              let low2 := rest2.takeWhile isLowerA
              if low2.length > 0 then some (rest2.drop low2.length) else none
            else none
          | [] => none
        else none
      else none
    else none

/-- Count of non-overlapping, leftmost matches (JS `String.match` with `/g`). -/
def entLoop : Nat → List Char → Nat
  | 0, _ => 0
  | _, [] => 0
  | fuel + 1, c :: rest =>
    match tryEntity (c :: rest) with
    | some rest2 => 1 + entLoop fuel rest2
    | none => entLoop fuel rest

/-- JS `(claim.match(/[A-Z][a-z]+\s+[A-Z][a-z]+/g) || []).length`. -/
def namedEntityCount (claim : String) : Nat :=
  entLoop claim.toList.length claim.toList

/-- JS `claim.trim().length`. -/
def claimLength (claim : String) : Nat := claim.trim.length

/-! ## ToolPlan -/

inductive Difficulty
  | trivial | simple | moderate | complex | contentious
deriving DecidableEq, Repr

structure UseTools where
  llm : Bool
  wikipedia : Bool
  web : Bool
  research : Bool
  news : Bool
  image : Bool
  url : Bool
deriving DecidableEq, Repr

structure Limits where
  wikipediaLimit : Nat
  scrapeLimit : Nat
  researchLimit : Nat
  newsLimit : Nat
deriving DecidableEq, Repr

structure ToolPlan where
  difficulty : Difficulty
  useTools : UseTools
  limits : Limits
  rationale : String
deriving DecidableEq, Repr

/-- The difficulty chain of `planToolsForClaim`: the `else if` ladder starting
from `'simple'`, followed by the unconditional breaking-news override. -/
def planDifficulty (claim : String) : Difficulty :=
  let base :=
    if hasOpinionMarker claim then Difficulty.trivial
    else if claimLength claim < 60 ∧ hasNumbers claim = false ∧
            namedEntityCount claim = 0 then Difficulty.simple
    else if hasUrlSignal claim then Difficulty.moderate
    else if hasNumbers claim = true ∨ 0 < namedEntityCount claim then Difficulty.moderate
    else Difficulty.simple
  if hasRecencyMarker claim then Difficulty.complex else base

/-- The `useTools` object of `planToolsForClaim`. -/
def planUseTools (claim : String) (d : Difficulty) : UseTools where
  llm := true
  wikipedia := decide (d ≠ Difficulty.trivial)
  web := decide (d = Difficulty.moderate ∨ d = Difficulty.complex)
  research := hasNumbers claim || hasResearchVocab claim
  news := hasRecencyMarker claim || decide (0 < namedEntityCount claim)
  image := false
  url := hasUrlSignal claim

/-- The `limits` object of `planToolsForClaim`. -/
def planLimits (claim : String) (d : Difficulty) : Limits where
  wikipediaLimit := if d = Difficulty.simple then 1 else 3
  scrapeLimit :=
    if d = Difficulty.simple then 2 else if d = Difficulty.moderate then 5 else 8
  researchLimit := if d = Difficulty.moderate then 5 else 8
  newsLimit := if hasRecencyMarker claim then 10 else 5

/-- `planToolsForClaim` (the Tool Planner), a pure function of the claim text. -/
def planToolsForClaim (claim : String) : ToolPlan :=
  let d := planDifficulty claim
  { difficulty := d
    useTools := planUseTools claim d
    limits := planLimits claim d
    rationale :=
      "Heuristic plan based on claim structure, recency cues, and presence of numbers/URLs." }

/-! ## Verdict label normalization (`normalizeVerdictLabel`) -/

inductive Label
  | vtrue | vfalse | vuncertain
deriving DecidableEq, Repr

/-- Left side of `(^|\b)`: start of string, or the previous character is not a
word character (the alternatives all begin with a word character, so `^` and
`\b` coincide at position 0). -/
def leftOk : Option Char → Bool
  | none => true
  | some c => !isWordChar c

/-- Right side of `(\b|$)`: end of string, or the next character is not a word
character (the alternatives all end with a word character). -/
def rightOk : List Char → Bool
  | [] => true
  | c :: _ => !isWordChar c

/-- The literal word `w` at the current position, with the right boundary. -/
def hereWord (w t : List Char) : Bool :=
  isPrefixCh w t && rightOk (t.drop w.length)

/-- Scan for `(^|\b)w(\b|$)`, carrying the previous character for the left
boundary. -/
def scanWord (w : List Char) : Option Char → List Char → Bool
  | prev, [] => leftOk prev && hereWord w []
  | prev, c :: rest => (leftOk prev && hereWord w (c :: rest)) || scanWord w (some c) rest

/-- `(^|\b)w(\b|$)` matches somewhere in `t` (for a literal word `w`). -/
def wordMatch (w : String) (t : List Char) : Bool := scanWord w.toList none t

/-- The first regex of `normalizeVerdictLabel`:
`/(^|\b)(true|accurate|correct|confirmed)(\b|$)/`. -/
def trueLexMatch (t : List Char) : Bool :=
  wordMatch "true" t || wordMatch "accurate" t || wordMatch "correct" t ||
  wordMatch "confirmed" t

/-- Tail of the `not\s+true` alternative after its whitespace: consume the
whitespace run, then require the literal `true` with its right boundary. -/
def wsThenTrue : List Char → Bool
  | [] => false
  | c :: rest =>
    if c.isWhitespace then wsThenTrue rest
    else hereWord ['t','r','u','e'] (c :: rest)

/-- The `not\s+true` alternative at the current position. -/
def hereNotTrue : List Char → Bool
  | 'n' :: 'o' :: 't' :: c :: rest => c.isWhitespace && wsThenTrue rest
  | _ => false

/-- Scan for `(^|\b)not\s+true(\b|$)`. -/
def scanNotTrue : Option Char → List Char → Bool
  | _, [] => false
  | prev, c :: rest => (leftOk prev && hereNotTrue (c :: rest)) || scanNotTrue (some c) rest

/-- The second regex of `normalizeVerdictLabel`:
`/(^|\b)(false|incorrect|untrue|debunked|not\s+true)(\b|$)/`. -/
def falseLexMatch (t : List Char) : Bool :=
  wordMatch "false" t || wordMatch "incorrect" t || wordMatch "untrue" t ||
  wordMatch "debunked" t || scanNotTrue none t

/-- `normalizeVerdictLabel`: lowercase the text, test the true lexicon, then
the false lexicon, defaulting to `uncertain`. -/
def normalizeVerdictLabel (text : String) : Label :=
  let t := lowerStr text
  if trueLexMatch t then Label.vtrue
  else if falseLexMatch t then Label.vfalse
  else Label.vuncertain

/-- `verdictToTruthPercent`. -/
def verdictToTruthPercent : Label → Nat
  | Label.vtrue => 95
  | Label.vfalse => 5
  | Label.vuncertain => 50

/-! ## `withTimeout`

The wrapper races the operation's promise against a `setTimeout` timer and
settles a fresh promise with whichever fires first.  We model the operation by
its eventual outcome `op` and its settle time `opTime`; the timer fires at
`ms` (ties go to the timer, since `setTimeout` fires no earlier than `ms`).
Settling a promise is first-wins (`settleOnce`); when the operation settles
first its callback runs `clearTimeout`, so the timer event never occurs. -/

/-- First-settle-wins semantics of settling a JS promise. -/
def settleOnce (cur : Option (Except String α)) (r : Except String α) :
    Option (Except String α) :=
  match cur with
  | some v => some v
  | none => some r

/-- The settlement events delivered to `withTimeout`'s promise, in time order:
if the operation settles strictly before `ms` the timer is cleared and only
the operation's outcome arrives; otherwise the timeout rejection arrives first
and the operation's late outcome is still delivered (and ignored). -/
def timeoutEvents (op : Except String α) (opTime ms : Nat) :
    List (Except String α) :=
  if opTime < ms then [op] else [Except.error "timeout", op]

/-- `withTimeout(promise, ms)`: the outcome of the race. -/
def withTimeout (op : Except String α) (opTime ms : Nat) : Except String α :=
  ((timeoutEvents op opTime ms).foldl settleOnce none).getD (Except.error "timeout")

/-! ## `extractUrls` -/

/-- Host characters `[\w.-]`. -/
def isHostChar (c : Char) : Bool := isWordChar c || c = '.' || c = '-'

/-- Path characters of the URL regex. -/
def isPathChar (c : Char) : Bool :=
  isWordChar c || c = '-' || c = '.' || c = '_' || c = '~' || c = ':' ||
  c = '/' || c = '?' || c = '#' || c = '[' || c = ']' || c = '@' ||
  c = '!' || c = '$' || c = '&' || c = Char.ofNat 39 || c = '(' || c = ')' ||
  c = '*' || c = '+' || c = ',' || c = ';' || c = '=' || c = '%'

/-- One attempt of `https?:\/\/[\w.-]+(?:\/[...]*)?` (case-insensitive) at the
head of the list: returns the matched characters and the remainder.  All
greedy pieces are followed by characters outside their class, so maximal
munch agrees with the JS engine. -/
def tryUrl : List Char → Option (List Char × List Char)
  | a :: b :: c :: d :: rest =>
    if lowerCh a = 'h' ∧ lowerCh b = 't' ∧ lowerCh c = 't' ∧ lowerCh d = 'p' then
      let (sPart, rest2) :=
        match rest with
        | e :: r => if lowerCh e = 's' then ([e], r) else (([] : List Char), rest)
        | [] => ([], [])
      match rest2 with
      | ':' :: '/' :: '/' :: rest3 =>
        let host := rest3.takeWhile isHostChar
        if host.length = 0 then none
        else
          let rest4 := rest3.drop host.length
          match rest4 with
          | '/' :: _ =>
            let path := rest4.takeWhile isPathChar
            some ([a,b,c,d] ++ sPart ++ [':','/','/'] ++ host ++ path,
                  rest4.drop path.length)
          | _ => some ([a,b,c,d] ++ sPart ++ [':','/','/'] ++ host, rest4)
      | _ => none
    else none
  | _ => none

/-- Non-overlapping global scan for URL matches (fuel = list length). -/
def urlScan : Nat → List Char → List (List Char)
  | 0, _ => []
  | _, [] => []
  | fuel + 1, c :: rest =>
    match tryUrl (c :: rest) with
    | some (m, rest2) => m :: urlScan fuel rest2
    | none => urlScan fuel rest

/-- JS `u.replace(/[).,]+$/g, '')`: drop trailing `)`, `.`, `,` characters. -/
def stripTrail (l : List Char) : List Char :=
  (l.reverse.dropWhile (fun c => c = ')' || c = '.' || c = ',')).reverse

/-- First-occurrence deduplication (JS `Array.from(new Set(...))`). -/
def dedupe : List String → List String
  | [] => []
  | x :: xs => x :: (dedupe xs).filter (fun y => y ≠ x)

/-- `extractUrls`: find URL matches, strip trailing punctuation, deduplicate
preserving first occurrence, and keep at most 12. -/
def extractUrls (text : String) : List String :=
  let found := (urlScan text.toList.length text.toList).map
    (fun l => String.mk (stripTrail l))
  (dedupe found).take 12

/-! ## Data model of the orchestrator -/

inductive Reliability
  | high | medium | low
deriving DecidableEq, Repr

structure ProviderResponse where
  provider : String
  answer : String
  error : Option String
deriving DecidableEq, Repr

structure WebSource where
  url : String
  title : String
  content : String
  domain : String
  reliability : Reliability
deriving DecidableEq, Repr

structure ResearchSource where
  title : String
  authors : List String
  journal : String
  year : Option Nat
  url : String
  abstract : String
  srcTag : String
deriving DecidableEq, Repr

structure NewsSource where
  title : String
  description : String
  url : String
  publishedAt : String
  source : String
  author : String
  reliability : Reliability
deriving DecidableEq, Repr

/-- The polymorphic `sources` entry of a `VerificationMethod`. -/
inductive EvidenceSource
  | web (w : WebSource)
  | research (r : ResearchSource)
  | news (n : NewsSource)
deriving DecidableEq, Repr

inductive MethodTag
  | llm | web | research | news | image | url
deriving DecidableEq, Repr

structure VerificationMethod where
  method : MethodTag
  sources : List EvidenceSource
  summary : String
  confidence : Nat
deriving DecidableEq, Repr

/-- Image-analysis payload.  The source's `metadata` field is always
`undefined` and its `deepfakeScore` is a float (`Math.random() * 100`); the
score is modelled as a `Nat` since no claim depends on its value. -/
structure ImageAnalysis where
  reverseSearchResults : List String
  tineyeResults : List String
  deepfakeScore : Nat
deriving DecidableEq, Repr

structure URLSafety where
  isSafe : Bool
  threats : List String
  reputation : String
  archiveLinks : List String
deriving DecidableEq, Repr

/-- One entry of the response's `responses` array. -/
structure RespEntry where
  provider : String
  verdict : String
  error : Option String
deriving DecidableEq, Repr

/-- The JSON body of a successful verification response. -/
structure VerifyBody where
  claim : String
  verdict : String
  verdictLabel : Label
  truthLikelihood : Nat
  methods : List VerificationMethod
  responses : List RespEntry
  research : List String
  imageAnalysis : ImageAnalysis
  urlSafety : List URLSafety
deriving DecidableEq, Repr

/-- The three body shapes the route can return: a verification result, a
chat-mode answer, or an object with an `error` field. -/
inductive RespBody
  | verify (b : VerifyBody)
  | chat (answer : String)
  | error (msg : String)
deriving DecidableEq, Repr

structure Response where
  status : Nat
  body : RespBody
deriving DecidableEq, Repr

/-- External adapter invocations, recorded as a trace by the model. -/
inductive Adapter
  | openai | perplexity | grok | gemini
  | perplexityResearch
  | wikipedia
  | scrape (url : String)
  | researchPapers
  | newsApi
  | imageSearch
  | urlSafetyCheck (url : String)
  | geminiConsensus
deriving DecidableEq, Repr

/-- The outcome of one `POST` request: the HTTP response, the trace of
adapter invocations, and whether the early-exit return was taken. -/
structure PostResult where
  resp : Response
  trace : List Adapter
  early : Bool
deriving Repr

/-- The request, after JSON parsing: `claim = none` models a missing or
non-string `claim` field (the source maps both to `undefined`). -/
structure Request where
  claim : Option String
  chatMode : Bool
  hasAnalysisData : Bool
  agenticFlagNotFalse : Bool
  hasImages : Bool
deriving Repr

/-- Oracle environment fixing the outcome of every external call: each field
is what the corresponding fail-soft adapter would return (adapters catch
their own failures and return empty/error-tagged values). -/
structure Env where
  agenticModeOff : Bool
  openaiR : ProviderResponse
  perplexityR : ProviderResponse
  grokR : ProviderResponse
  geminiR : ProviderResponse
  chatOpenaiR : ProviderResponse
  chatGeminiR : ProviderResponse
  researchUrls : List String
  wikiSources : List WebSource
  scrapeResult : String → Option WebSource
  researchSources : List ResearchSource
  newsSources : List NewsSource
  imageAnalysisR : ImageAnalysis
  urlSafetyR : String → URLSafety
  finalConsensusAnswer : String
  consensusAnswer : String

/-! ## Orchestrator (`POST` of the verify route) -/

/-- JS truthiness of the optional `error` tag. -/
def errTruthy : Option String → Bool
  | none => false
  | some s => s ≠ ""

/-- `agentic`: `parsed?.agentic !== false && process.env.AGENTIC_MODE !== 'false'`. -/
def agenticOf (req : Request) (env : Env) : Bool :=
  req.agenticFlagNotFalse && !env.agenticModeOff

/-- The fixed plan used when adaptive planning is disabled. -/
def nonAgenticPlan (claim : String) (hasImages : Bool) : ToolPlan where
  difficulty := Difficulty.moderate
  useTools :=
    { llm := true, wikipedia := true, web := true, research := true, news := true
      image := hasImages, url := decide (0 < (extractUrls claim).length) }
  limits :=
    { wikipediaLimit := 2, scrapeLimit := 5, researchLimit := 6, newsLimit := 6 }
  rationale := "Default non-agentic plan"

/-- The plan the request runs under. -/
def planOf (claim : String) (req : Request) (env : Env) : ToolPlan :=
  if agenticOf req env then planToolsForClaim claim
  else nonAgenticPlan claim req.hasImages

/-- METHOD 1: the concurrent opinion-provider batch (in launch order). -/
def llmResponsesOf (plan : ToolPlan) (env : Env) : List ProviderResponse :=
  if plan.useTools.llm then [env.openaiR, env.perplexityR, env.grokR, env.geminiR]
  else []

/-- `r.answer && !r.error`. -/
def isValidResp (r : ProviderResponse) : Bool :=
  r.answer ≠ "" && !errTruthy r.error

def validLlmOf (plan : ToolPlan) (env : Env) : List ProviderResponse :=
  (llmResponsesOf plan env).filter isValidResp

/-- The number of non-error, non-empty provider answers in the batch. -/
def validLlmCount (env : Env) : Nat :=
  ([env.openaiR, env.perplexityR, env.grokR, env.geminiR].filter isValidResp).length

def llmMethodOf (plan : ToolPlan) (env : Env) : VerificationMethod where
  method := MethodTag.llm
  sources := []
  summary := joinSep "\n\n"
    ((validLlmOf plan env).map (fun r => r.provider ++ ": " ++ r.answer))
  confidence :=
    if 0 < (validLlmOf plan env).length
    then min ((validLlmOf plan env).length * 25) 100 else 0

/-- METHOD 2: `researchWithPerplexity` result (with `.catch(() => [])`). -/
def researchUrlsOf (plan : ToolPlan) (env : Env) : List String :=
  if plan.useTools.web then env.researchUrls else []

def wikiTakenOf (plan : ToolPlan) (env : Env) : List WebSource :=
  if plan.useTools.wikipedia
  then env.wikiSources.take (jsOr plan.limits.wikipediaLimit 2) else []

def scrapeUrlsOf (plan : ToolPlan) (env : Env) : List String :=
  (researchUrlsOf plan env).take (jsOr plan.limits.scrapeLimit 5)

def scrapedOf (plan : ToolPlan) (env : Env) : List WebSource :=
  ((scrapeUrlsOf plan env).map env.scrapeResult).reduceOption

def webSourcesOf (plan : ToolPlan) (env : Env) : List WebSource :=
  wikiTakenOf plan env ++ scrapedOf plan env

def webMethodOf (plan : ToolPlan) (env : Env) : VerificationMethod where
  method := MethodTag.web
  sources := (webSourcesOf plan env).map EvidenceSource.web
  summary := joinSep "\n\n" ((webSourcesOf plan env).map
    (fun s => s.title ++ " (" ++ s.domain ++ "): " ++ s.content.take 200 ++ "..."))
  confidence :=
    if 0 < (webSourcesOf plan env).length
    then min ((webSourcesOf plan env).length * 20) 100 else 0

/-- METHOD 3: academic search. -/
def researchSourcesOf (plan : ToolPlan) (env : Env) : List ResearchSource :=
  if plan.useTools.research then env.researchSources else []

def yearStr : Option Nat → String
  | some y => toString y
  | none => "undefined"

def researchMethodOf (plan : ToolPlan) (env : Env) : VerificationMethod where
  method := MethodTag.research
  sources := (researchSourcesOf plan env).map EvidenceSource.research
  summary := joinSep "\n\n" ((researchSourcesOf plan env).map
    (fun s => s.title ++ " (" ++ s.journal ++ ", " ++ yearStr s.year ++ "): " ++
      s.abstract.take 200 ++ "..."))
  confidence :=
    if 0 < (researchSourcesOf plan env).length
    then min ((researchSourcesOf plan env).length * 15) 100 else 0

/-- METHOD 4: news search. -/
def newsSourcesOf (plan : ToolPlan) (env : Env) : List NewsSource :=
  if plan.useTools.news then env.newsSources else []

def newsMethodOf (plan : ToolPlan) (env : Env) : VerificationMethod where
  method := MethodTag.news
  sources := (newsSourcesOf plan env).map EvidenceSource.news
  summary := joinSep "\n\n" ((newsSourcesOf plan env).map
    (fun s => s.title ++ " (" ++ s.source ++ "): " ++ s.description.take 200 ++ "..."))
  confidence :=
    if 0 < (newsSourcesOf plan env).length
    then min ((newsSourcesOf plan env).length * 20) 100 else 0

/-- METHOD 5: image analysis (the all-empty default when the tool is off). -/
def imageAnalysisOf (plan : ToolPlan) (env : Env) : ImageAnalysis :=
  if plan.useTools.image then env.imageAnalysisR
  else { reverseSearchResults := [], tineyeResults := [], deepfakeScore := 0 }

def imageMethodOf (plan : ToolPlan) (env : Env) : VerificationMethod where
  method := MethodTag.image
  sources := []
  summary := "Reverse search results: " ++
    toString (imageAnalysisOf plan env).reverseSearchResults.length ++
    " matches found. Deepfake score: " ++
    toString (imageAnalysisOf plan env).deepfakeScore ++ "%"
  confidence :=
    if 0 < (imageAnalysisOf plan env).reverseSearchResults.length then 80 else 0

/-- METHOD 6: URL-safety checks over the URLs extracted from the claim. -/
def urlSafetyChecksOf (claim : String) (plan : ToolPlan) (env : Env) :
    List URLSafety :=
  if plan.useTools.url then (extractUrls claim).map env.urlSafetyR else []

def urlMethodOf (claim : String) (plan : ToolPlan) (env : Env) :
    VerificationMethod where
  method := MethodTag.url
  sources := []
  summary := "Checked " ++ toString (extractUrls claim).length ++
    " URLs. Safe: " ++
    toString ((urlSafetyChecksOf claim plan env).filter (fun u => u.isSafe)).length ++
    "/" ++ toString (extractUrls claim).length
  confidence :=
    if 0 < (urlSafetyChecksOf claim plan env).length
    then min (((urlSafetyChecksOf claim plan env).filter
      (fun u => u.isSafe)).length * 25) 100
    else 0

/-- The six per-category results, in source order. -/
def methodsAll (claim : String) (plan : ToolPlan) (env : Env) :
    List VerificationMethod :=
  [llmMethodOf plan env, webMethodOf plan env, researchMethodOf plan env,
   newsMethodOf plan env, imageMethodOf plan env, urlMethodOf claim plan env]

/-- `llmResponses.map(r => r.answer).join('\n')`. -/
def combinedOf (plan : ToolPlan) (env : Env) : String :=
  joinSep "\n" ((llmResponsesOf plan env).map (fun r => r.answer))

def prelimLabelOf (plan : ToolPlan) (env : Env) : Label :=
  normalizeVerdictLabel (combinedOf plan env)

def prelimTruthOf (plan : ToolPlan) (env : Env) : Nat :=
  verdictToTruthPercent (prelimLabelOf plan env)

/-- The early-exit guard (the source's two nested `if`s, flattened: the inner
computation is pure). -/
def earlyCond (agentic : Bool) (plan : ToolPlan) (env : Env) : Prop :=
  agentic = true ∧
  (plan.difficulty = Difficulty.trivial ∨ plan.difficulty = Difficulty.simple) ∧
  (90 ≤ prelimTruthOf plan env ∨ prelimTruthOf plan env ≤ 10)

instance (agentic : Bool) (plan : ToolPlan) (env : Env) :
    Decidable (earlyCond agentic plan env) := by
  unfold earlyCond; infer_instance

/-- `{ provider, verdict: r.answer || 'No response', error: r.error }`. -/
def respEntryOf (r : ProviderResponse) : RespEntry where
  provider := r.provider
  verdict := jsOrS r.answer "No response"
  error := r.error

/-- The adapter invocations performed before the early-exit check (every
category's calls happen before the check in the source). -/
def preTrace (claim : String) (plan : ToolPlan) (env : Env) : List Adapter :=
  (if plan.useTools.llm
   then [Adapter.openai, Adapter.perplexity, Adapter.grok, Adapter.gemini] else [])
  ++ (if plan.useTools.web then [Adapter.perplexityResearch] else [])
  ++ (if plan.useTools.wikipedia then [Adapter.wikipedia] else [])
  ++ (scrapeUrlsOf plan env).map Adapter.scrape
  ++ (if plan.useTools.research then [Adapter.researchPapers] else [])
  ++ (if plan.useTools.news then [Adapter.newsApi] else [])
  ++ (if plan.useTools.image then [Adapter.imageSearch] else [])
  ++ (if plan.useTools.url then (extractUrls claim).map Adapter.urlSafetyCheck else [])

/-- The body of the early-exit (short-circuited) response. -/
def earlyBody (claim : String) (plan : ToolPlan) (env : Env) : VerifyBody where
  claim := claim
  verdict := (combinedOf plan env).take 600
  verdictLabel := prelimLabelOf plan env
  truthLikelihood := prelimTruthOf plan env
  methods :=
    [{ method := MethodTag.llm, sources := []
       summary := joinSep "\n\n"
         ((llmResponsesOf plan env).map (fun r => r.provider ++ ": " ++ r.answer))
       confidence := 90 }]
  responses := (llmResponsesOf plan env).map respEntryOf
  research := []
  imageAnalysis := imageAnalysisOf plan env
  urlSafety := []

/-- The consensus label: `normalizeVerdictLabel(consensusResponse.answer ||
finalConsensus.answer || '')`. -/
def consensusLabelOf (env : Env) : Label :=
  normalizeVerdictLabel (jsOrS env.consensusAnswer (jsOrS env.finalConsensusAnswer ""))

/-- The body of the full-pipeline response. -/
def fullBody (claim : String) (plan : ToolPlan) (env : Env) : VerifyBody where
  claim := claim
  verdict := jsOrS env.consensusAnswer
    (jsOrS env.finalConsensusAnswer "Unable to verify claim at this time")
  verdictLabel := consensusLabelOf env
  truthLikelihood := verdictToTruthPercent (consensusLabelOf env)
  methods := (methodsAll claim plan env).filter (fun m => decide (0 < m.confidence))
  responses := (llmResponsesOf plan env).map respEntryOf
  research := researchUrlsOf plan env
  imageAnalysis := imageAnalysisOf plan env
  urlSafety := urlSafetyChecksOf claim plan env

/-- The verification pipeline after validation and chat-mode dispatch. -/
def runVerification (claim : String) (req : Request) (env : Env) : PostResult :=
  let agentic := agenticOf req env
  let plan := planOf claim req env
  if earlyCond agentic plan env then
    { resp := { status := 200, body := RespBody.verify (earlyBody claim plan env) }
      trace := preTrace claim plan env
      early := true }
  else
    { resp := { status := 200, body := RespBody.verify (fullBody claim plan env) }
      trace := preTrace claim plan env ++ [Adapter.gemini, Adapter.geminiConsensus]
      early := false }

/-- `handleChatMode`: try OpenAI, fall back to Gemini, then to a canned
apology (the apology's interpolated analysis fields are omitted; no claim
depends on the chat answer text). -/
def handleChatMode (env : Env) : PostResult :=
  if env.chatOpenaiR.answer ≠ "" ∧ errTruthy env.chatOpenaiR.error = false then
    { resp := { status := 200, body := RespBody.chat env.chatOpenaiR.answer }
      trace := [Adapter.openai], early := false }
  else if env.chatGeminiR.answer ≠ "" ∧ errTruthy env.chatGeminiR.error = false then
    { resp := { status := 200, body := RespBody.chat env.chatGeminiR.answer }
      trace := [Adapter.openai, Adapter.gemini], early := false }
  else
    { resp := { status := 200
                body := RespBody.chat "I apologize, but I'm having trouble processing your question." }
      trace := [Adapter.openai, Adapter.gemini], early := false }

/-- The `POST` handler of the verify route: validate the claim, dispatch to
chat mode, otherwise run the verification pipeline. -/
def POST (req : Request) (env : Env) : PostResult :=
  match req.claim with
  | none =>
    { resp := { status := 400, body := RespBody.error "claim is required" }
      trace := [], early := false }
  | some claim =>
    if claim = "" then
      { resp := { status := 400, body := RespBody.error "claim is required" }
        trace := [], early := false }
    else if req.chatMode = true ∧ req.hasAnalysisData = true then
      handleChatMode env
    else
      runVerification claim req env

/-! ## Response accessors -/

/-- The methods list of a response body (empty for non-verification bodies). -/
def respMethods : RespBody → List VerificationMethod
  | RespBody.verify b => b.methods
  | _ => []

/-- The method tags of a response body. -/
def bodyMethodTags (b : RespBody) : List MethodTag :=
  (respMethods b).map (fun m => m.method)

/-- The verdict label of a response body, when it is a verification body. -/
def bodyLabel : RespBody → Option Label
  | RespBody.verify b => some b.verdictLabel
  | _ => none

/-- The `truthLikelihood` field of a response body, when present. -/
def bodyTruth : RespBody → Option Nat
  | RespBody.verify b => some b.truthLikelihood
  | _ => none

/-! ## Supporting lemmas -/

lemma verdictToTruthPercent_cases (l : Label) :
    verdictToTruthPercent l = 95 ∨ verdictToTruthPercent l = 5 ∨
    verdictToTruthPercent l = 50 := by
  cases l <;> simp [verdictToTruthPercent]

lemma planToolsForClaim_difficulty (c : String) :
    (planToolsForClaim c).difficulty = planDifficulty c := rfl

lemma planToolsForClaim_useTools (c : String) :
    (planToolsForClaim c).useTools = planUseTools c (planDifficulty c) := rfl

lemma planOf_llm (claim : String) (req : Request) (env : Env) :
    (planOf claim req env).useTools.llm = true := by
  rw [planOf]; split <;> rfl

lemma planOf_agentic (claim : String) (req : Request) (env : Env)
    (h : agenticOf req env = true) : planOf claim req env = planToolsForClaim claim := by
  rw [planOf, if_pos h]

lemma post_run (req : Request) (env : Env) (c : String) (h1 : req.claim = some c)
    (h2 : c ≠ "") (h3 : ¬(req.chatMode = true ∧ req.hasAnalysisData = true)) :
    POST req env = runVerification c req env := by
  simp only [POST, h1]
  rw [if_neg h2, if_neg h3]

lemma run_early (claim : String) (req : Request) (env : Env)
    (h : earlyCond (agenticOf req env) (planOf claim req env) env) :
    runVerification claim req env =
      { resp := { status := 200
                  body := RespBody.verify (earlyBody claim (planOf claim req env) env) }
        trace := preTrace claim (planOf claim req env) env
        early := true } := by
  simp only [runVerification]
  rw [if_pos h]

lemma run_full (claim : String) (req : Request) (env : Env)
    (h : ¬ earlyCond (agenticOf req env) (planOf claim req env) env) :
    runVerification claim req env =
      { resp := { status := 200
                  body := RespBody.verify (fullBody claim (planOf claim req env) env) }
        trace := preTrace claim (planOf claim req env) env ++
          [Adapter.gemini, Adapter.geminiConsensus]
        early := false } := by
  simp only [runVerification]
  rw [if_neg h]

lemma handleChat_shape (env : Env) :
    (handleChatMode env).early = false ∧
    respMethods (handleChatMode env).resp.body = [] ∧
    bodyTruth (handleChatMode env).resp.body = none ∧
    bodyLabel (handleChatMode env).resp.body = none := by
  unfold handleChatMode
  split
  · exact ⟨rfl, rfl, rfl, rfl⟩
  · split
    · exact ⟨rfl, rfl, rfl, rfl⟩
    · exact ⟨rfl, rfl, rfl, rfl⟩

lemma llmMethodOf_confidence (plan : ToolPlan) (env : Env) :
    (llmMethodOf plan env).confidence = min ((validLlmOf plan env).length * 25) 100 := by
  show (if 0 < (validLlmOf plan env).length
        then min ((validLlmOf plan env).length * 25) 100 else 0) = _
  rcases Nat.eq_zero_or_pos (validLlmOf plan env).length with h | h
  · rw [if_neg (by omega), h]
    simp
  · rw [if_pos h]

lemma validLlmOf_count (plan : ToolPlan) (env : Env) (h : plan.useTools.llm = true) :
    (validLlmOf plan env).length = validLlmCount env := by
  rw [validLlmOf, llmResponsesOf, if_pos h, validLlmCount]

lemma llmMethodOf_method (plan : ToolPlan) (env : Env) :
    (llmMethodOf plan env).method = MethodTag.llm := rfl

lemma webMethodOf_method (plan : ToolPlan) (env : Env) :
    (webMethodOf plan env).method = MethodTag.web := rfl

lemma researchMethodOf_method (plan : ToolPlan) (env : Env) :
    (researchMethodOf plan env).method = MethodTag.research := rfl

lemma newsMethodOf_method (plan : ToolPlan) (env : Env) :
    (newsMethodOf plan env).method = MethodTag.news := rfl

lemma imageMethodOf_method (plan : ToolPlan) (env : Env) :
    (imageMethodOf plan env).method = MethodTag.image := rfl

lemma urlMethodOf_method (claim : String) (plan : ToolPlan) (env : Env) :
    (urlMethodOf claim plan env).method = MethodTag.url := rfl

lemma mem_methodsAll_llm (claim : String) (plan : ToolPlan) (env : Env)
    (m : VerificationMethod) (hm : m ∈ methodsAll claim plan env)
    (hw : m.method = MethodTag.llm) : m = llmMethodOf plan env := by
  simp only [methodsAll, List.mem_cons, List.not_mem_nil, or_false] at hm
  rcases hm with h | h | h | h | h | h <;> subst h
  · rfl
  · rw [webMethodOf_method] at hw; exact absurd hw (by decide)
  · rw [researchMethodOf_method] at hw; exact absurd hw (by decide)
  · rw [newsMethodOf_method] at hw; exact absurd hw (by decide)
  · rw [imageMethodOf_method] at hw; exact absurd hw (by decide)
  · rw [urlMethodOf_method] at hw; exact absurd hw (by decide)

lemma mem_methodsAll_web (claim : String) (plan : ToolPlan) (env : Env)
    (m : VerificationMethod) (hm : m ∈ methodsAll claim plan env)
    (hw : m.method = MethodTag.web) : m = webMethodOf plan env := by
  simp only [methodsAll, List.mem_cons, List.not_mem_nil, or_false] at hm
  rcases hm with h | h | h | h | h | h <;> subst h
  · rw [llmMethodOf_method] at hw; exact absurd hw (by decide)
  · rfl
  · rw [researchMethodOf_method] at hw; exact absurd hw (by decide)
  · rw [newsMethodOf_method] at hw; exact absurd hw (by decide)
  · rw [imageMethodOf_method] at hw; exact absurd hw (by decide)
  · rw [urlMethodOf_method] at hw; exact absurd hw (by decide)

/-! ## C7 — `withTimeout` -/

/-- C7: `withTimeout(operation, ms)` propagates the operation's own outcome
unchanged (success value or underlying failure) whenever the operation
settles before the timer fires, and fails with a `timeout` error whenever
the timer fires first. -/
theorem withTimeout_race {α : Type} (op : Except String α) (opTime ms : Nat) :
    (opTime < ms → withTimeout op opTime ms = op) ∧
    (ms ≤ opTime → withTimeout op opTime ms = Except.error "timeout") := by
  constructor
  · intro h
    rw [withTimeout, timeoutEvents, if_pos h]
    rfl
  · intro h
    rw [withTimeout, timeoutEvents, if_neg (by omega)]
    rfl

theorem withTimeout_race_witness :
    (5 < 10 ∧ withTimeout (Except.ok (3 : Nat)) 5 10 = Except.ok 3) ∧
    (7 ≤ 12 ∧ withTimeout (Except.error "boom" : Except String Nat) 12 7 =
      Except.error "timeout") :=
  ⟨⟨by omega, (withTimeout_race (Except.ok (3 : Nat)) 5 10).1 (by omega)⟩,
   ⟨by omega, (withTimeout_race (Except.error "boom" : Except String Nat) 12 7).2
      (by omega)⟩⟩

/-! ## C8 — Tool Planner is a pure, deterministic function of the claim text -/

/-- C8: invoking the Tool Planner twice on the same claim string yields
ToolPlans equal in every field (difficulty, useTools, limits, rationale); the
embedding takes no input other than the claim text, so there is no dependence
on network or external state. -/
theorem planToolsForClaim_deterministic (c₁ c₂ : String) (h : c₁ = c₂) :
    (planToolsForClaim c₁).difficulty = (planToolsForClaim c₂).difficulty ∧
    (planToolsForClaim c₁).useTools = (planToolsForClaim c₂).useTools ∧
    (planToolsForClaim c₁).limits = (planToolsForClaim c₂).limits ∧
    (planToolsForClaim c₁).rationale = (planToolsForClaim c₂).rationale ∧
    planToolsForClaim c₁ = planToolsForClaim c₂ := by
  subst h
  exact ⟨rfl, rfl, rfl, rfl, rfl⟩

theorem planToolsForClaim_deterministic_witness :
    ("the earth is flat" : String) = "the earth is flat" ∧
    planToolsForClaim "the earth is flat" = planToolsForClaim "the earth is flat" :=
  ⟨rfl, (planToolsForClaim_deterministic "the earth is flat" "the earth is flat" rfl).2.2.2.2⟩

/-! ## C2 — opinion markers and the Tool Planner -/

/-- C2 (counterexample): a claim containing an opinion marker ("i think",
"best") together with a recency marker ("today") is classified `complex`
with `useTools.web = true`, refuting the claim that opinion markers force
`trivial` and `web = false` regardless of other lexical signals. -/
theorem opinion_marker_not_always_trivial :
    hasOpinionMarker "I think it is best today" = true ∧
    ¬((planToolsForClaim "I think it is best today").difficulty = Difficulty.trivial ∧
      (planToolsForClaim "I think it is best today").useTools.web = false) := by
  constructor
  · decide
  · intro ⟨h, _⟩
    exact absurd h (by decide)

/-- C2 (amended): for every claim text containing an opinion-marker phrase
and no recency marker, the Tool Planner produces difficulty `trivial` and
`useTools.web = false` regardless of the other lexical signals; a recency
marker overrides the classification to `complex` (and hence `web = true`). -/
theorem opinion_marker_trivial (c : String) (hop : hasOpinionMarker c = true)
    (hrec : hasRecencyMarker c = false) :
    (planToolsForClaim c).difficulty = Difficulty.trivial ∧
    (planToolsForClaim c).useTools.web = false := by
  have hd : planDifficulty c = Difficulty.trivial := by
    simp [planDifficulty, hop, hrec]
  constructor
  · rw [planToolsForClaim_difficulty, hd]
  · rw [planToolsForClaim_useTools]
    simp [planUseTools, hd]

theorem opinion_marker_trivial_witness :
    hasOpinionMarker "I think cats are best" = true ∧
    hasRecencyMarker "I think cats are best" = false ∧
    ((planToolsForClaim "I think cats are best").difficulty = Difficulty.trivial ∧
     (planToolsForClaim "I think cats are best").useTools.web = false) :=
  ⟨by decide, by decide,
   opinion_marker_trivial "I think cats are best" (by decide) (by decide)⟩

/-! ## C9 — true-lexicon precedence in `normalizeVerdictLabel` -/

lemma ws_not_word {c : Char} (h : c.isWhitespace = true) : isWordChar c = false := by
  simp only [Char.isWhitespace, Bool.or_eq_true, decide_eq_true_eq] at h
  rcases h with ((h | h) | h) | h <;> subst h <;> rfl

lemma wsThenTrue_scan :
    ∀ (t : List Char) (p : Char), p.isWhitespace = true → wsThenTrue t = true →
      scanWord ['t','r','u','e'] (some p) t = true := by
  intro t
  induction t with
  | nil => intro p _ h; simp [wsThenTrue] at h
  | cons c rest ih =>
    intro p hp h
    rw [wsThenTrue] at h
    by_cases hc : c.isWhitespace = true
    · rw [if_pos hc] at h
      have h2 := ih c hc h
      simp [scanWord, h2]
    · rw [if_neg hc] at h
      simp [scanWord, leftOk, ws_not_word hp, h]

lemma scanNotTrue_imp_scanTrue :
    ∀ (t : List Char) (prev : Option Char), scanNotTrue prev t = true →
      scanWord ['t','r','u','e'] prev t = true := by
  intro t
  induction t with
  | nil => intro prev h; simp [scanNotTrue] at h
  | cons c rest ih =>
    intro prev h
    rw [scanNotTrue, Bool.or_eq_true] at h
    rcases h with h | h
    · rw [Bool.and_eq_true] at h
      obtain ⟨-, hn⟩ := h
      unfold hereNotTrue at hn
      split at hn
      case h_2 => exact absurd hn (by simp)
      case h_1 c2 rest2 heq =>
        rw [Bool.and_eq_true] at hn
        obtain ⟨hws, hwst⟩ := hn
        injection heq with hc hrest
        subst hc; subst hrest
        have h4 := wsThenTrue_scan rest2 c2 hws hwst
        simp [scanWord, h4]
    · have h2 := ih (some c) h
      simp [scanWord, h2]

/-- C9: `normalizeVerdictLabel` tests the true lexicon first, so any text
containing a true-lexicon word as a whole word is labeled `true` even when a
false-lexicon phrase also occurs; in particular `"not true"` is labeled
`true`, and every text matched by the `not\s+true` alternative of the false
lexicon is already matched by the true lexicon, making that alternative
unreachable. -/
theorem normalizeVerdictLabel_true_precedence :
    (∀ t : String, trueLexMatch (lowerStr t) = true →
      normalizeVerdictLabel t = Label.vtrue) ∧
    normalizeVerdictLabel "not true" = Label.vtrue ∧
    (∀ t : String, scanNotTrue none (lowerStr t) = true →
      trueLexMatch (lowerStr t) = true) := by
  refine ⟨?_, by decide, ?_⟩
  · intro t h
    simp only [normalizeVerdictLabel]
    rw [if_pos h]
  · intro t h
    have h2 := scanNotTrue_imp_scanTrue (lowerStr t) none h
    have h3 : wordMatch "true" (lowerStr t) = true := h2
    simp [trueLexMatch, h3]

theorem normalizeVerdictLabel_true_precedence_witness :
    trueLexMatch (lowerStr "definitely not true") = true ∧
    normalizeVerdictLabel "definitely not true" = Label.vtrue ∧
    scanNotTrue none (lowerStr "definitely not true") = true ∧
    trueLexMatch (lowerStr "definitely not true") = true :=
  ⟨by decide, normalizeVerdictLabel_true_precedence.1 "definitely not true" (by decide),
   by decide, normalizeVerdictLabel_true_precedence.2.2 "definitely not true" (by decide)⟩

/-! ## Concrete requests and environments used by witnesses -/

/-- A provider call that failed soft (empty answer, error tag). -/
def errResp (p : String) : ProviderResponse := ⟨p, "", some "missing_key"⟩

/-- A provider answering a plain "False." verdict. -/
def falseResp (p : String) : ProviderResponse := ⟨p, "False.", none⟩

/-- Baseline oracle: every provider fails soft and every adapter finds
nothing. -/
def baseEnv : Env where
  agenticModeOff := false
  openaiR := errResp "openai"
  perplexityR := errResp "perplexity"
  grokR := errResp "grok"
  geminiR := errResp "gemini"
  chatOpenaiR := errResp "openai"
  chatGeminiR := errResp "gemini"
  researchUrls := []
  wikiSources := []
  scrapeResult := fun _ => none
  researchSources := []
  newsSources := []
  imageAnalysisR := ⟨[], [], 0⟩
  urlSafetyR := fun _ => ⟨true, [], "good", []⟩
  finalConsensusAnswer := ""
  consensusAnswer := ""

/-- All four opinion providers agree the claim is false. -/
def allFalseEnv : Env :=
  { baseEnv with
    openaiR := falseResp "openai"
    perplexityR := falseResp "perplexity"
    grokR := falseResp "grok"
    geminiR := falseResp "gemini" }

/-- Only OpenAI answers (with "False."); the other three providers error. -/
def oneFalseEnv : Env := { baseEnv with openaiR := falseResp "openai" }

/-- Three of four providers answer; Gemini errors. -/
def threeOkEnv : Env :=
  { baseEnv with
    openaiR := ⟨"openai", "The claim is accurate.", none⟩
    perplexityR := ⟨"perplexity", "Likely accurate.", none⟩
    grokR := ⟨"grok", "Accurate.", none⟩ }

/-- An agentic verification request for an opinion claim with research
vocabulary ("study"). -/
def studyReq : Request := ⟨some "I think this study is best", false, false, true, false⟩

/-- An agentic verification request for a short opinion claim. -/
def catsReq : Request := ⟨some "cats are best", false, false, true, false⟩

/-- A non-agentic verification request (full pipeline, no early exit). -/
def plainReq : Request := ⟨some "hello world test claim", false, false, false, false⟩

/-- A request whose claim is the empty string. -/
def emptyReq : Request := ⟨some "", false, false, true, false⟩

/-! ## C6 — invalid claim is rejected with 400 and no adapter runs -/

/-- C6: for every request whose `claim` field is missing, not a string, or
empty (`claim = none` models missing/non-string after JSON parsing), the
endpoint returns HTTP 400 with an error body and the adapter trace is empty:
no opinion provider, scraper, research, news, image, or URL-safety adapter is
invoked. -/
theorem invalid_claim_rejected (req : Request) (env : Env)
    (h : req.claim = none ∨ req.claim = some "") :
    (POST req env).resp.status = 400 ∧
    (POST req env).resp.body = RespBody.error "claim is required" ∧
    (POST req env).trace = [] := by
  rcases h with h | h
  · simp [POST, h]
  · simp [POST, h]

theorem invalid_claim_rejected_witness :
    (emptyReq.claim = none ∨ emptyReq.claim = some "") ∧
    ((POST emptyReq baseEnv).resp.status = 400 ∧
     (POST emptyReq baseEnv).resp.body = RespBody.error "claim is required" ∧
     (POST emptyReq baseEnv).trace = []) :=
  ⟨Or.inr rfl, invalid_claim_rejected emptyReq baseEnv (Or.inr rfl)⟩

/-! ## C10 — truthLikelihood takes only the values 95, 5, 50 -/

/-- C10: every successful (HTTP 200) verification response carries a
`truthLikelihood` of exactly 95, 5 or 50, and on the early-exit path only 95
or 5 are possible. -/
theorem truthLikelihood_values (req : Request) (env : Env) (v : Nat)
    (h200 : (POST req env).resp.status = 200)
    (hv : bodyTruth (POST req env).resp.body = some v) :
    (v = 95 ∨ v = 5 ∨ v = 50) ∧
    ((POST req env).early = true → v = 95 ∨ v = 5) := by
  rcases hcl : req.claim with _ | c
  · simp [POST, hcl, bodyTruth] at hv
  · by_cases hc : c = ""
    · subst hc
      simp [POST, hcl, bodyTruth] at hv
    · by_cases hchat : req.chatMode = true ∧ req.hasAnalysisData = true
      · have hr : POST req env = handleChatMode env := by
          simp only [POST, hcl]
          rw [if_neg hc, if_pos hchat]
        rw [hr, (handleChat_shape env).2.2.1] at hv
        cases hv
      · have hr := post_run req env c hcl hc hchat
        by_cases he : earlyCond (agenticOf req env) (planOf c req env) env
        · have h2 := hr.trans (run_early c req env he)
          rw [h2] at hv ⊢
          simp only [bodyTruth, earlyBody, Option.some.injEq] at hv
          obtain ⟨-, -, hbound⟩ := he
          have hvals := verdictToTruthPercent_cases (prelimLabelOf (planOf c req env) env)
          rw [show verdictToTruthPercent (prelimLabelOf (planOf c req env) env) =
            prelimTruthOf (planOf c req env) env from rfl] at hvals
          constructor
          · omega
          · intro _
            omega
        · have h2 := hr.trans (run_full c req env he)
          rw [h2] at hv ⊢
          simp only [bodyTruth, fullBody, Option.some.injEq] at hv
          have hvals := verdictToTruthPercent_cases (consensusLabelOf env)
          constructor
          · omega
          · intro hearly
            cases hearly

theorem truthLikelihood_values_witness :
    ((POST plainReq baseEnv).resp.status = 200 ∧
     bodyTruth (POST plainReq baseEnv).resp.body = some 50) ∧
    ((50 = 95 ∨ 50 = 5 ∨ 50 = 50) ∧
     ((POST plainReq baseEnv).early = true → 50 = 95 ∨ 50 = 5)) :=
  ⟨⟨by decide, by decide⟩,
   truthLikelihood_values plainReq baseEnv 50 (by decide) (by decide)⟩

/-! ## C5 — every returned MethodResult is active (confidence > 0) -/

/-- C5: in every successful (HTTP 200) verification response, every
MethodResult in `methods` has confidence strictly greater than 0, and any
web-category MethodResult that appears carries at least one source — so when
the web category finds zero sources its MethodResult is excluded. -/
theorem methods_confidence_positive (req : Request) (env : Env)
    (h200 : (POST req env).resp.status = 200) :
    ∀ m ∈ respMethods (POST req env).resp.body,
      0 < m.confidence ∧ (m.method = MethodTag.web → m.sources ≠ []) := by
  rcases hcl : req.claim with _ | c
  · intro m hm
    simp [POST, hcl, respMethods] at hm
  · by_cases hc : c = ""
    · subst hc
      intro m hm
      simp [POST, hcl, respMethods] at hm
    · by_cases hchat : req.chatMode = true ∧ req.hasAnalysisData = true
      · have hr : POST req env = handleChatMode env := by
          simp only [POST, hcl]
          rw [if_neg hc, if_pos hchat]
        intro m hm
        rw [hr, (handleChat_shape env).2.1] at hm
        cases hm
      · have hr := post_run req env c hcl hc hchat
        by_cases he : earlyCond (agenticOf req env) (planOf c req env) env
        · have h2 := hr.trans (run_early c req env he)
          rw [h2]
          intro m hm
          simp only [respMethods, earlyBody, List.mem_singleton] at hm
          subst hm
          constructor
          · show (0 : Nat) < 90
            omega
          · intro hw
            cases hw
        · have h2 := hr.trans (run_full c req env he)
          rw [h2]
          intro m hm
          simp only [respMethods, fullBody] at hm
          obtain ⟨hmem, hp⟩ := List.mem_filter.mp hm
          have hconf : 0 < m.confidence := of_decide_eq_true hp
          refine ⟨hconf, ?_⟩
          intro hw
          have hmw := mem_methodsAll_web c (planOf c req env) env m hmem hw
          subst hmw
          rcases Nat.eq_zero_or_pos (webSourcesOf (planOf c req env) env).length
            with hz | hpos
          · exfalso
            have : (webMethodOf (planOf c req env) env).confidence = 0 := by
              show (if 0 < (webSourcesOf (planOf c req env) env).length
                    then min ((webSourcesOf (planOf c req env) env).length * 20) 100
                    else 0) = 0
              rw [hz]
              simp
            omega
          · have hne := List.ne_nil_of_length_pos hpos
            show (webSourcesOf (planOf c req env) env).map EvidenceSource.web ≠ []
            intro hnil
            exact hne (List.map_eq_nil_iff.mp hnil)

theorem methods_confidence_positive_witness :
    ((POST plainReq threeOkEnv).resp.status = 200 ∧
     respMethods (POST plainReq threeOkEnv).resp.body ≠ []) ∧
    (∀ m ∈ respMethods (POST plainReq threeOkEnv).resp.body,
      0 < m.confidence ∧ (m.method = MethodTag.web → m.sources ≠ [])) :=
  ⟨⟨by decide, by decide⟩,
   methods_confidence_positive plainReq threeOkEnv (by decide)⟩

/-! ## C3 — opinion confidence formula -/

/-- C3 (counterexample): an early-exit response whose opinion batch had
exactly one valid provider answer carries the hardcoded confidence 90, not
`min(25 × 1, 100) = 25`, refuting the claim for early-exit responses. -/
theorem opinion_confidence_not_always_scaled :
    (POST catsReq oneFalseEnv).resp.status = 200 ∧
    bodyMethodTags (POST catsReq oneFalseEnv).resp.body = [MethodTag.llm] ∧
    (respMethods (POST catsReq oneFalseEnv).resp.body).map
      (fun m => m.confidence) = [90] ∧
    validLlmCount oneFalseEnv = 1 ∧
    min (25 * validLlmCount oneFalseEnv) 100 = 25 ∧
    (90 : Nat) ≠ 25 := by
  decide

/-- C3 (amended): on the full-consensus path the opinion (`llm`)
MethodResult's confidence equals `min(25 × (number of provider responses with
a non-empty answer and no error tag), 100)` — in particular 75 when 3 of 4
providers answer — while on the early-exit path the returned opinion
confidence is the hardcoded value 90. -/
theorem opinion_confidence_formula (req : Request) (env : Env) :
    ((POST req env).early = true →
      ∀ m ∈ respMethods (POST req env).resp.body,
        m.method = MethodTag.llm → m.confidence = 90) ∧
    ((POST req env).early = false →
      ∀ m ∈ respMethods (POST req env).resp.body,
        m.method = MethodTag.llm →
          m.confidence = min (25 * validLlmCount env) 100) := by
  rcases hcl : req.claim with _ | c
  · constructor
    · intro _ m hm
      simp [POST, hcl, respMethods] at hm
    · intro _ m hm
      simp [POST, hcl, respMethods] at hm
  · by_cases hc : c = ""
    · subst hc
      have hb : respMethods (POST req env).resp.body = [] := by
        simp [POST, hcl, respMethods]
      rw [hb]
      constructor
      · intro _ m hm
        cases hm
      · intro _ m hm
        cases hm
    · by_cases hchat : req.chatMode = true ∧ req.hasAnalysisData = true
      · have hr : POST req env = handleChatMode env := by
          simp only [POST, hcl]
          rw [if_neg hc, if_pos hchat]
        rw [hr, (handleChat_shape env).2.1]
        constructor
        · intro _ m hm
          cases hm
        · intro _ m hm
          cases hm
      · have hr := post_run req env c hcl hc hchat
        by_cases he : earlyCond (agenticOf req env) (planOf c req env) env
        · have h2 := hr.trans (run_early c req env he)
          rw [h2]
          constructor
          · intro _ m hm _
            simp only [respMethods, earlyBody, List.mem_singleton] at hm
            subst hm
            rfl
          · intro hfalse
            cases hfalse
        · have h2 := hr.trans (run_full c req env he)
          rw [h2]
          constructor
          · intro htrue
            cases htrue
          · intro _ m hm hllm
            simp only [respMethods, fullBody] at hm
            obtain ⟨hmem, -⟩ := List.mem_filter.mp hm
            have hml := mem_methodsAll_llm c (planOf c req env) env m hmem hllm
            subst hml
            rw [llmMethodOf_confidence,
              validLlmOf_count (planOf c req env) env (planOf_llm c req env),
              Nat.mul_comm]

theorem opinion_confidence_formula_witness :
    ((POST plainReq threeOkEnv).early = false ∧
     validLlmCount threeOkEnv = 3 ∧ min (25 * 3) 100 = 75) ∧
    (∀ m ∈ respMethods (POST plainReq threeOkEnv).resp.body,
      m.method = MethodTag.llm →
        m.confidence = min (25 * validLlmCount threeOkEnv) 100) :=
  ⟨⟨by decide, by decide, by decide⟩,
   (opinion_confidence_formula plainReq threeOkEnv).2 (by decide)⟩

/-! ## C4 — fallback chain of the consensus synthesis -/

/-- C4: when the consensus synthesis call yields no answer, the final verdict
label and truth-likelihood are computed from the earlier generic opinion
call's answer; when both yield no answer, the label is `uncertain` and the
truth-likelihood is 50. -/
theorem consensus_fallback (req : Request) (env : Env) (l : Label) (t : Nat)
    (hearly : (POST req env).early = false)
    (hl : bodyLabel (POST req env).resp.body = some l)
    (ht : bodyTruth (POST req env).resp.body = some t) :
    (env.consensusAnswer = "" →
      l = normalizeVerdictLabel env.finalConsensusAnswer ∧
      t = verdictToTruthPercent (normalizeVerdictLabel env.finalConsensusAnswer)) ∧
    (env.consensusAnswer = "" ∧ env.finalConsensusAnswer = "" →
      l = Label.vuncertain ∧ t = 50) := by
  rcases hcl : req.claim with _ | c
  · simp [POST, hcl, bodyLabel] at hl
  · by_cases hc : c = ""
    · subst hc
      simp [POST, hcl, bodyLabel] at hl
    · by_cases hchat : req.chatMode = true ∧ req.hasAnalysisData = true
      · have hr : POST req env = handleChatMode env := by
          simp only [POST, hcl]
          rw [if_neg hc, if_pos hchat]
        rw [hr, (handleChat_shape env).2.2.2] at hl
        cases hl
      · have hr := post_run req env c hcl hc hchat
        by_cases he : earlyCond (agenticOf req env) (planOf c req env) env
        · rw [hr.trans (run_early c req env he)] at hearly
          cases hearly
        · rw [hr.trans (run_full c req env he)] at hl ht
          simp only [bodyLabel, bodyTruth, fullBody, Option.some.injEq] at hl ht
          have hlabel : consensusLabelOf env = l := hl
          have htruth : verdictToTruthPercent (consensusLabelOf env) = t := ht
          have hj : jsOrS env.finalConsensusAnswer "" = env.finalConsensusAnswer := by
            rw [jsOrS]
            split
            · next hfin => exact hfin.symm
            · rfl
          constructor
          · intro hcons
            have hcl2 : consensusLabelOf env =
                normalizeVerdictLabel env.finalConsensusAnswer := by
              rw [consensusLabelOf, hcons]
              rw [show jsOrS "" (jsOrS env.finalConsensusAnswer "") =
                jsOrS env.finalConsensusAnswer "" from rfl, hj]
            constructor
            · rw [← hlabel, hcl2]
            · rw [← htruth, hcl2]
          · intro ⟨hcons, hfin⟩
            have hcl2 : consensusLabelOf env = Label.vuncertain := by
              rw [consensusLabelOf, hcons, hfin]
              decide
            constructor
            · rw [← hlabel, hcl2]
            · rw [← htruth, hcl2]
              decide

theorem consensus_fallback_witness :
    ((POST plainReq baseEnv).early = false ∧
     bodyLabel (POST plainReq baseEnv).resp.body = some Label.vuncertain ∧
     bodyTruth (POST plainReq baseEnv).resp.body = some 50 ∧
     baseEnv.consensusAnswer = "" ∧ baseEnv.finalConsensusAnswer = "") ∧
    ((baseEnv.consensusAnswer = "" →
       Label.vuncertain = normalizeVerdictLabel baseEnv.finalConsensusAnswer ∧
       (50 : Nat) = verdictToTruthPercent
         (normalizeVerdictLabel baseEnv.finalConsensusAnswer)) ∧
     (baseEnv.consensusAnswer = "" ∧ baseEnv.finalConsensusAnswer = "" →
       Label.vuncertain = Label.vuncertain ∧ (50 : Nat) = 50)) :=
  ⟨⟨by decide, by decide, by decide, rfl, rfl⟩,
   consensus_fallback plainReq baseEnv Label.vuncertain 50
     (by decide) (by decide) (by decide)⟩

/-! ## C1 — the early exit and the adapter invocations -/

/-- C1 (counterexample): an agentic request for the trivial opinion claim
"I think this study is best" (whose plan enables the research tool via the
word "study") with all providers answering "False." does short-circuit —
the response contains only the opinion MethodResult — yet the research
adapter has already been invoked before the early return, refuting the claim
that the short-circuit returns without invoking the research adapter. -/
theorem early_exit_invoked_research_anyway :
    (POST studyReq allFalseEnv).early = true ∧
    (POST studyReq allFalseEnv).resp.status = 200 ∧
    bodyMethodTags (POST studyReq allFalseEnv).resp.body = [MethodTag.llm] ∧
    (planToolsForClaim "I think this study is best").useTools.research = true ∧
    Adapter.researchPapers ∈ (POST studyReq allFalseEnv).trace := by
  decide

/-- C1 (amended): under agentic planning, when the plan difficulty is
`trivial` or `simple` and the preliminary opinion truth-likelihood is ≥ 90 or
≤ 10, the orchestrator short-circuits and returns with only the opinion
MethodResult populated — but it does not skip the adapter invocations: the
research, news, wikipedia and URL-safety adapters enabled by the plan are all
invoked before the early return (only the web-search/scraping and image
adapters, which such a plan disables, are skipped). -/
theorem early_exit_shape (req : Request) (env : Env) (c : String)
    (h1 : req.claim = some c) (h2 : c ≠ "")
    (h3 : ¬(req.chatMode = true ∧ req.hasAnalysisData = true))
    (h4 : agenticOf req env = true)
    (h5 : (planToolsForClaim c).difficulty = Difficulty.trivial ∨
          (planToolsForClaim c).difficulty = Difficulty.simple)
    (h6 : 90 ≤ prelimTruthOf (planToolsForClaim c) env ∨
          prelimTruthOf (planToolsForClaim c) env ≤ 10) :
    (POST req env).early = true ∧
    bodyMethodTags (POST req env).resp.body = [MethodTag.llm] ∧
    ((planToolsForClaim c).useTools.research = true →
      Adapter.researchPapers ∈ (POST req env).trace) ∧
    ((planToolsForClaim c).useTools.news = true →
      Adapter.newsApi ∈ (POST req env).trace) ∧
    ((planToolsForClaim c).useTools.wikipedia = true →
      Adapter.wikipedia ∈ (POST req env).trace) ∧
    ((planToolsForClaim c).useTools.url = true →
      ∀ u ∈ extractUrls c, Adapter.urlSafetyCheck u ∈ (POST req env).trace) := by
  have hplan := planOf_agentic c req env h4
  have he : earlyCond (agenticOf req env) (planOf c req env) env := by
    rw [h4, hplan]
    exact ⟨rfl, h5, h6⟩
  have hr := (post_run req env c h1 h2 h3).trans (run_early c req env he)
  rw [hr, hplan]
  refine ⟨rfl, rfl, ?_, ?_, ?_, ?_⟩
  · intro hres
    simp [preTrace, hres]
  · intro hnews
    simp [preTrace, hnews]
  · intro hwiki
    simp [preTrace, hwiki]
  · intro hurl u humem
    simp only [preTrace, List.mem_append]
    refine Or.inr ?_
    rw [if_pos hurl]
    exact List.mem_map_of_mem Adapter.urlSafetyCheck humem

theorem early_exit_shape_witness :
    (studyReq.claim = some "I think this study is best" ∧
     agenticOf studyReq allFalseEnv = true ∧
     (planToolsForClaim "I think this study is best").difficulty =
       Difficulty.trivial ∧
     prelimTruthOf (planToolsForClaim "I think this study is best") allFalseEnv ≤ 10) ∧
    ((POST studyReq allFalseEnv).early = true ∧
     bodyMethodTags (POST studyReq allFalseEnv).resp.body = [MethodTag.llm] ∧
     ((planToolsForClaim "I think this study is best").useTools.research = true →
       Adapter.researchPapers ∈ (POST studyReq allFalseEnv).trace) ∧
     ((planToolsForClaim "I think this study is best").useTools.news = true →
       Adapter.newsApi ∈ (POST studyReq allFalseEnv).trace) ∧
     ((planToolsForClaim "I think this study is best").useTools.wikipedia = true →
       Adapter.wikipedia ∈ (POST studyReq allFalseEnv).trace) ∧
     ((planToolsForClaim "I think this study is best").useTools.url = true →
       ∀ u ∈ extractUrls "I think this study is best",
         Adapter.urlSafetyCheck u ∈ (POST studyReq allFalseEnv).trace)) :=
  ⟨⟨rfl, by decide, by decide, by decide⟩,
   early_exit_shape studyReq allFalseEnv "I think this study is best"
     rfl (by decide) (by decide) (by decide) (Or.inl (by decide)) (Or.inr (by decide))⟩

end TruthLens
